import Mathlib

/-!
Verification of the `tcp-console` crate: a TCP console that dispatches
strongly typed envelopes to registered subscriptions and falls back to a
free-text scan over all subscriptions for frames that do not decode.

The development shallowly embeds the crate's pure logic:
* `ensure_newline` (src/lib.rs);
* the builder (`Builder.subscribe`, `Builder.build`, src/builder.rs);
* the per-frame dispatch of `Console::handle_console_session`
  (src/console.rs), including the typed path, the free-text fallback scan
  and the session read loop;
* the accept gate of `Console::spawn` (src/console.rs);
* the bcs envelope codec used by `Client::send` and the session decoder,
  modelled concretely for byte payloads (ULEB128 length prefix) and
  parametrically for the generic service-id type;
* the `tokio::sync::Notify` shutdown signal (`Console::stop`), modelled
  operationally from its documented `notify_waiters` semantics.

Library functions from outside the crate (`String::from_utf8_lossy`,
`str::trim`, UTF-8 encoding, bcs, tokio's `Notify`) are modelled from their
documented behaviour; everything else is translated from the source.
-/

namespace TcpConsole

/-- Function `ensure_newline` from src/lib.rs: append `'\n'` unless the string already
ends with it. -/
def ensure_newline (input : String) : String :=
  if input.endsWith "\n" then input else input.push '\n'

/-- Modelled from Rust `char::is_whitespace`: the Unicode `White_Space`
property (the 25 code points with that property). -/
def isRustWhitespace (c : Char) : Bool :=
  let n := c.toNat
  (0x9 ≤ n && n ≤ 0xD) || n = 0x20 || n = 0x85 || n = 0xA0 || n = 0x1680 ||
  (0x2000 ≤ n && n ≤ 0x200A) || n = 0x2028 || n = 0x2029 || n = 0x202F ||
  n = 0x205F || n = 0x3000

/-- Modelled from Rust `str::trim`: remove leading and trailing characters
with the Unicode `White_Space` property. -/
def rustTrim (s : String) : String :=
  ⟨((s.data.dropWhile isRustWhitespace).reverse.dropWhile isRustWhitespace).reverse⟩

/-- Modelled from Rust `char::len_utf8`/`String::as_bytes`: UTF-8 encoding of
one scalar value. -/
def utf8EncodeChar (c : Char) : List Nat :=
  let n := c.toNat
  if n < 0x80 then [n]
  else if n < 0x800 then [0xC0 + n / 0x40, 0x80 + n % 0x40]
  else if n < 0x10000 then
    [0xE0 + n / 0x1000, 0x80 + n / 0x40 % 0x40, 0x80 + n % 0x40]
  else
    [0xF0 + n / 0x40000, 0x80 + n / 0x1000 % 0x40, 0x80 + n / 0x40 % 0x40,
     0x80 + n % 0x40]

/-- Modelled from Rust `str::as_bytes`: the UTF-8 byte sequence of a string. -/
def strBytes (s : String) : List Nat :=
  s.data.flatMap utf8EncodeChar

/-- One byte is a UTF-8 continuation byte (`0x80..=0xBF`). -/
def isCont (b : Nat) : Bool := 0x80 ≤ b && b ≤ 0xBF

/-- Decode one UTF-8 sequence led by `b` with lookahead `rest`.
`.ok (ch, k)` decodes `ch` consuming `k` continuation bytes; `.error k`
reports an invalid sequence whose maximal valid subpart beyond the lead
spans `k` continuation bytes. -/
def utf8SeqStep (b : Nat) (rest : List Nat) : Except Nat (Char × Nat) :=
  if b < 0x80 then .ok (Char.ofNat b, 0)
  else if 0xC2 ≤ b && b ≤ 0xDF then
    match rest with
    | c :: _ =>
      if isCont c then .ok (Char.ofNat ((b - 0xC0) * 0x40 + (c - 0x80)), 1)
      else .error 0
    | [] => .error 0
  else if 0xE0 ≤ b && b ≤ 0xEF then
    match rest with
    | c :: rest2 =>
      if (if b = 0xE0 then 0xA0 ≤ c && c ≤ 0xBF
          else if b = 0xED then 0x80 ≤ c && c ≤ 0x9F
          else isCont c) then
        match rest2 with
        | d :: _ =>
          if isCont d then
            .ok (Char.ofNat ((b - 0xE0) * 0x1000 + (c - 0x80) * 0x40 +
                (d - 0x80)), 2)
          else .error 1
        | [] => .error 1
      else .error 0
    | [] => .error 0
  else if 0xF0 ≤ b && b ≤ 0xF4 then
    match rest with
    | c :: rest2 =>
      if (if b = 0xF0 then 0x90 ≤ c && c ≤ 0xBF
          else if b = 0xF4 then 0x80 ≤ c && c ≤ 0x8F
          else isCont c) then
        match rest2 with
        | d :: rest3 =>
          if isCont d then
            match rest3 with
            | e :: _ =>
              if isCont e then
                .ok (Char.ofNat ((b - 0xF0) * 0x40000 + (c - 0x80) * 0x1000 +
                    (d - 0x80) * 0x40 + (e - 0x80)), 3)
              else .error 2
            | [] => .error 2
          else .error 1
        | [] => .error 1
      else .error 0
    | [] => .error 0
  else .error 0

/-- Modelled from Rust `String::from_utf8_lossy`: decode UTF-8, replacing
each maximal invalid subpart with U+FFFD.  `fuel` only drives the structural
recursion; every step consumes at least one byte, so `utf8LossyChars` below
always supplies enough. -/
def utf8LossyAux : Nat → List Nat → List Char
  | _, [] => []
  | 0, _ :: _ => []
  | fuel + 1, b :: rest =>
    match utf8SeqStep b rest with
    | .ok (ch, k) => ch :: utf8LossyAux fuel (rest.drop k)
    | .error k => '�' :: utf8LossyAux fuel (rest.drop k)

/-- Model of `String::from_utf8_lossy` on a byte list. -/
def utf8LossyChars (l : List Nat) : List Char := utf8LossyAux l.length l

/-- Modelled from `String::from_utf8_lossy` as a `String`. -/
def utf8Lossy (bytes : List Nat) : String := ⟨utf8LossyChars bytes⟩

/-- The text the session derives from an untyped frame:
`String::from_utf8_lossy(bytes.as_ref()).trim().to_string()`
(src/console.rs, free-text fallback). -/
def weakText (bytes : List Nat) : String := rustTrim (utf8Lossy bytes)

/-! ## The bcs envelope codec

`Client::send` builds `Message { service_id, bytes: bcs::to_bytes(payload) }`
and serializes the wrapper with bcs; the session decodes with
`bcs::from_bytes::<Message<Services>>`.  bcs serializes a struct as the
concatenation of its fields and a byte sequence as a ULEB128 length prefix
followed by the raw bytes, and `from_bytes` demands that the whole input is
consumed.  The service-id field is generic, so its codec is a parameter
(`BcsCodec`) with the bcs prefix round-trip property. -/

/-- ULEB128 encoding of a natural number (bcs sequence-length prefix).
`fuel` only drives the structural recursion; each iteration at least halves
`n`, so `uleb128Encode` below always supplies enough. -/
def uleb128EncodeAux : Nat → Nat → List Nat
  | 0, n => [n]
  | fuel + 1, n =>
    if n < 0x80 then [n]
    else (n % 0x80 + 0x80) :: uleb128EncodeAux fuel (n / 0x80)

/-- ULEB128 encoding of a natural number. -/
def uleb128Encode (n : Nat) : List Nat := uleb128EncodeAux n n

/-- ULEB128 decoding: the decoded value and the remaining input. -/
def uleb128Decode : List Nat → Option (Nat × List Nat)
  | [] => none
  | b :: rest =>
    if b < 0x80 then some (b, rest)
    else
      match uleb128Decode rest with
      | some (m, r) => some (b - 0x80 + 0x80 * m, r)
      | none => none

/-- bcs encoding of a `bytes::Bytes` field: ULEB128 length then raw bytes. -/
def bcsBytesEncode (payload : List Nat) : List Nat :=
  uleb128Encode payload.length ++ payload

/-- bcs decoding of a `bytes::Bytes` field from a prefix of the input. -/
def bcsBytesDecode (l : List Nat) : Option (List Nat × List Nat) :=
  match uleb128Decode l with
  | some (n, rest) =>
    if n ≤ rest.length then some (rest.take n, rest.drop n) else none
  | none => none

/-- A bcs codec for the generic `Services` type: a prefix encoder/decoder pair
with the bcs round-trip property. -/
structure BcsCodec (S : Type) where
  enc : S → List Nat
  dec : List Nat → Option (S × List Nat)
  dec_enc : ∀ s rest, dec (enc s ++ rest) = some (s, rest)

/-- Encoding `bcs::to_bytes` of `Message { service_id, bytes }` (src/console.rs
`Message::new` composed with `Client::send`): the service-id field followed by
the length-prefixed payload bytes. -/
def encodeMessage (c : BcsCodec S) (service_id : S) (payload : List Nat) :
    List Nat :=
  c.enc service_id ++ bcsBytesEncode payload

/-- Decoding `bcs::from_bytes::<Message<Services>>`: decode both fields and require
that no input remains. -/
def decodeMessage (c : BcsCodec S) (l : List Nat) : Option (S × List Nat) :=
  match c.dec l with
  | some (service_id, r1) =>
    match bcsBytesDecode r1 with
    | some (payload, r2) => if r2 = [] then some (service_id, payload) else none
    | none => none
  | none => none

/-! ## Subscriptions and the registry -/

/-- A `Subscription` trait object (src/subscription.rs): `handle` receives a
strongly typed payload, `weak_handle` receives free-form text; each returns an
optional reply or an error.  Handler bodies are arbitrary caller-supplied
logic; `SubscriptionError` is abstracted as `String`. -/
structure Subscription where
  handle : List Nat → Except String (Option (List Nat))
  weak_handle : String → Except String (Option String)

/-- Lookup `HashMap::get` on the registry, modelled on an association list (the
list order stands for the map's unspecified iteration order). -/
def assocLookup [DecidableEq K] : List (K × V) → K → Option V
  | [], _ => none
  | (k, v) :: rest, key => if k = key then some v else assocLookup rest key

/-- Model of `HashMap::entry` as used by `Builder::subscribe`: an occupied
key leaves the map unchanged (`Entry::Occupied(_) => ...` inserts nothing), a
vacant key gets the value inserted.  Returns whether the key was occupied,
with the resulting map. -/
def entryOccupiedOrInsert [DecidableEq K] (m : List (K × V)) (k : K) (v : V) :
    Bool × List (K × V) :=
  match assocLookup m k with
  | some _ => (true, m)
  | none => (false, m ++ [(k, v)])

/-! ## The errors of src/console.rs -/

/-- The crate's `Error` enum (src/console.rs).  `Io` and `Serde` payloads are
abstracted as strings. -/
inductive Error where
  | ServiceIdUsed (id : String)
  | NoPort
  | Io (err : String)
  | Serde (err : String)
deriving DecidableEq

/-! ## The builder (src/builder.rs) -/

/-- Structure `Builder` (src/builder.rs): accumulated subscriptions, optional bind
target, optional welcome text, origin-restriction flag.  `A` is the generic
bind-target type (`ToSocketAddrs`); the console.rs snapshot instantiates it
with the `u16` port bound as `(LOCALHOST, port)`. -/
structure Builder (S A : Type) where
  subscriptions : List (S × Subscription)
  bind_address : Option A
  welcome : Option String
  accept_only_localhost : Bool

/-- Constructor `Builder::new`. -/
def Builder.new : Builder S A :=
  { subscriptions := [], bind_address := none, welcome := none,
    accept_only_localhost := false }

/-- Method `Builder::subscribe`: record the textual form of the service id first
(`format!("{service_id:?}")`), then insert through the map's entry API,
failing with `Error::ServiceIdUsed` on an occupied entry. -/
def Builder.subscribe [DecidableEq S] [Repr S] (b : Builder S A)
    (service_id : S) (subscription : Subscription) :
    Except Error (Builder S A) :=
  let service_id_string := reprStr service_id
  match entryOccupiedOrInsert b.subscriptions service_id subscription with
  | (true, _) => .error (.ServiceIdUsed service_id_string)
  | (false, m) => .ok { b with subscriptions := m }

/-- Method `Builder::bind_address` (named apart from the field accessor). -/
def Builder.setBindAddress (b : Builder S A) (bind_address : A) :
    Builder S A :=
  { b with bind_address := some bind_address }

/-- Method `Builder::welcome` (named apart from the field accessor). -/
def Builder.setWelcome (b : Builder S A) (message : String) : Builder S A :=
  { b with welcome := some message }

/-- Method `Builder::accept_only_localhost` (named apart from the field accessor). -/
def Builder.setAcceptOnlyLocalhost (b : Builder S A) : Builder S A :=
  { b with accept_only_localhost := true }

/-! ## The console (src/console.rs) -/

/-- The shared `Inner` state of src/console.rs. -/
structure Inner (S : Type) where
  subscriptions : List (S × Subscription)
  welcome : String
  accept_only_localhost : Bool

/-- Structure `Console`: the shared inner state plus the bind target.  console.rs names
the field `port` (a `u16`); builder.rs supplies the generic bind target. -/
structure Console (S A : Type) where
  inner : Inner S
  port : A

/-- Constructor `Console::new`. -/
def Console.new (subscriptions : List (S × Subscription)) (port : A)
    (welcome : String) (accept_only_localhost : Bool) : Console S A :=
  { inner := { subscriptions, welcome, accept_only_localhost }, port }

/-- Method `Builder::build`: fail when no bind target was supplied, otherwise build
the console, defaulting the welcome text to `""` and passing it through
`ensure_newline`.  (This is a pure step: no socket is touched here.) -/
def Builder.build (b : Builder S A) : Except Error (Console S A) :=
  match b.bind_address with
  | none => .error .NoPort
  | some bind_address =>
    .ok (Console.new b.subscriptions bind_address
      (ensure_newline (b.welcome.getD "")) b.accept_only_localhost)

/-! ## Per-frame dispatch (`Console::handle_console_session`) -/

/-- The free-text fallback loop of `handle_console_session`: call
`weak_handle` on each subscription in registry order; `Ok(None)` and errors
continue the scan, the first `Ok(Some(reply))` stops it. -/
def weakScan : List (S × Subscription) → String → Option String
  | [], _ => none
  | (_, subscription) :: rest, text =>
    match subscription.weak_handle text with
    | .ok none => weakScan rest text
    | .ok (some message) => some message
    | .error _ => weakScan rest text

/-- Dispatch of one received frame, returning the optional reply bytes the
session writes back.  Typed path: decode as `Message`, look the service id up,
call `handle`; a handler error is logged and swallowed.  Untyped path: derive
the trimmed lossy text, scan `weak_handle`s, and `ensure_newline` the reply. -/
def processFrame [DecidableEq S] (c : BcsCodec S)
    (subs : List (S × Subscription)) (bytes : List Nat) : Option (List Nat) :=
  match decodeMessage c bytes with
  | some (service_id, payload) =>
    match assocLookup subs service_id with
    | some subscription =>
      match subscription.handle payload with
      | .ok none => none
      | .ok (some message) => some message
      | .error _ => none
    | none => none
  | none =>
    match weakScan subs (weakText bytes) with
    | some message => some (strBytes (ensure_newline message))
    | none => none

/-- An observation used in the statements below: the successful reply, if
any, that one registry entry's `weak_handle` offers for a text (`Ok(None)`
and handler errors both count as no reply). -/
def weakReply (text : String) (p : S × Subscription) : Option String :=
  match p.2.weak_handle text with
  | .ok (some message) => some message
  | .ok none => none
  | .error _ => none

/-! ## The session read loop -/

/-- What one pass of the session loop's `select!`/`next()` yields
(src/console.rs): the stop signal, a received frame, a receive error
(`Some(Err(_))`), or end of stream (`None`, peer closed). -/
inductive SessionEvent where
  | stopNotified
  | recvOk (bytes : List Nat)
  | recvErr
  | peerClosed
deriving DecidableEq

/-- How a modelled session run ends. -/
inductive SessionEnd where
  | noPeerAddr
  | stoppedBySignal
  | closedByPeer
  | stillReading
deriving DecidableEq

/-- The session read loop: welcome already sent, repeatedly take the next
event.  The stop signal and peer close return; a receive error is logged and
skipped; a received frame is dispatched and its optional reply appended to
the bytes written on this connection. -/
def sessionLoop [DecidableEq S] (c : BcsCodec S) (inner : Inner S) :
    List SessionEvent → List (List Nat) → SessionEnd × List (List Nat)
  | [], sent => (.stillReading, sent)
  | .stopNotified :: _, sent => (.stoppedBySignal, sent)
  | .peerClosed :: _, sent => (.closedByPeer, sent)
  | .recvErr :: rest, sent => sessionLoop c inner rest sent
  | .recvOk bytes :: rest, sent =>
    sessionLoop c inner rest
      (sent ++ (processFrame c inner.subscriptions bytes).toList)

/-- A peer socket address; only its `ip().is_loopback()` bit matters here. -/
structure PeerAddr where
  isLoopback : Bool
deriving DecidableEq

/-- Session entry `Console::handle_console_session`: bail out if the peer address cannot be
resolved (nothing is sent), otherwise send the welcome text as the first
frame and enter the read loop. -/
def handle_console_session [DecidableEq S] (c : BcsCodec S) (inner : Inner S)
    (peerAddr : Option PeerAddr) (events : List SessionEvent) :
    SessionEnd × List (List Nat) :=
  match peerAddr with
  | none => (.noPeerAddr, [])
  | some _ => sessionLoop c inner events [strBytes inner.welcome]

/-! ## The accept loop gate (`Console::spawn`) -/

/-- The accept-loop body for one accepted connection (src/console.rs
`Console::spawn`): close it when the peer address cannot be resolved, or when
the origin restriction is on and the peer is not loopback (both `continue`
accepting); otherwise spawn `handle_console_session`.  `none` means the
connection was dropped with no session and no bytes sent. -/
def acceptAndRun [DecidableEq S] (c : BcsCodec S) (inner : Inner S)
    (peerAddr : Option PeerAddr) (events : List SessionEvent) :
    Option (SessionEnd × List (List Nat)) :=
  match peerAddr with
  | none => none
  | some addr =>
    if inner.accept_only_localhost && !addr.isLoopback then none
    else some (handle_console_session c inner peerAddr events)

/-- Constant `Console::LOCALHOST`. -/
def LOCALHOST : String := "localhost"

/-- Method `Console::spawn`, up to its first suspension: `TcpListener::bind((LOCALHOST,
self.port))` is awaited before the accept-loop task is spawned, so a bind
failure is returned to the caller.  The OS bind outcome is a parameter from
bind target to result. -/
def Console.spawn (cns : Console S A)
    (osBind : String × A → Except String Unit) : Except Error Unit :=
  match osBind (LOCALHOST, cns.port) with
  | .error e => .error (.Io e)
  | .ok _ => .ok ()

/-! ## The shutdown signal (`Console::stop` and `tokio::sync::Notify`)

`Console::stop` calls `Notify::notify_waiters` on the shared `stop` signal;
the accept loop and every session re-create a `stop.notified()` future inside
`tokio::select!` on each loop iteration.  `notify_waiters` is modelled from
the tokio documentation: it wakes exactly the tasks currently suspended in
`notified()` and stores no permit for tasks that register afterwards.  Each
task (the accept loop or a session) is in one of three phases. -/

/-- Phase of one task of the console: running its loop body between
suspension points, suspended at its `select!` (hence registered as a waiter
of the stop signal), or terminated. -/
inductive TaskPhase where
  | processing
  | selecting
  | closed
deriving DecidableEq

/-- The console tasks together with the shared stop signal: one phase per
task, and whether `Console::stop` has been called. -/
structure StopSystem where
  tasks : List TaskPhase
  stopFired : Bool
deriving DecidableEq

/-- Scheduler events for the stop model: task `i` finishes its loop body and
suspends at its `select!` (registering with the signal); the peer serves task
`i`'s read branch (a frame arrives, deregistering it from the signal); or
`Console::stop` fires `notify_waiters`. -/
inductive SysEvent where
  | enterSelect (i : Nat)
  | frameArrives (i : Nat)
  | fireStop
deriving DecidableEq

/-- One scheduler step.  `fireStop` wakes exactly the currently selecting
(registered) tasks, which observe the signal and terminate; a task between
suspension points is untouched and no permit is stored for it. -/
def sysStep (s : StopSystem) : SysEvent → StopSystem
  | .enterSelect i =>
    match s.tasks[i]? with
    | some .processing => { s with tasks := s.tasks.set i .selecting }
    | _ => s
  | .frameArrives i =>
    match s.tasks[i]? with
    | some .selecting => { s with tasks := s.tasks.set i .processing }
    | _ => s
  | .fireStop =>
    { tasks := s.tasks.map (fun p => if p = .selecting then .closed else p),
      stopFired := true }

/-- A whole schedule, left to right. -/
def sysRun (s : StopSystem) (events : List SysEvent) : StopSystem :=
  events.foldl sysStep s

/-! ## Codec lemmas -/

/-- Fuel sufficiency for the ULEB128 round-trip: with fuel at least `n`,
decoding the encoding of `n` in front of any suffix returns `n` and the
suffix. -/
theorem uleb128Aux_decode_encode :
    ∀ fuel n, n ≤ fuel →
      ∀ rest, uleb128Decode (uleb128EncodeAux fuel n ++ rest) =
        some (n, rest) := by
  intro fuel
  induction fuel with
  | zero =>
    intro n hn rest
    have : n = 0 := by omega
    subst this
    simp [uleb128EncodeAux, uleb128Decode]
  | succ fuel ih =>
    intro n hn rest
    unfold uleb128EncodeAux
    by_cases h : n < 0x80
    · simp [h, uleb128Decode]
    · rw [if_neg h]
      simp only [List.cons_append]
      unfold uleb128Decode
      rw [if_neg (by omega)]
      have hdiv : n / 0x80 ≤ fuel := by
        have := Nat.div_lt_self (n := n) (by omega) (by omega : 1 < 0x80)
        omega
      rw [ih (n / 0x80) hdiv rest]
      change some (n % 0x80 + 0x80 - 0x80 + 0x80 * (n / 0x80), rest) =
        some (n, rest)
      simp only [Option.some.injEq, Prod.mk.injEq]
      exact ⟨by omega, trivial⟩

/-- ULEB128 round-trip: decoding the encoding of `n` in front of any suffix
returns `n` and the suffix. -/
theorem uleb128_decode_encode (n : Nat) :
    ∀ rest, uleb128Decode (uleb128Encode n ++ rest) = some (n, rest) :=
  uleb128Aux_decode_encode n n le_rfl

/-- Byte-sequence round-trip: a bcs `Bytes` field decodes back to the bytes
that were encoded, leaving the suffix untouched. -/
theorem bcsBytes_decode_encode (payload rest : List Nat) :
    bcsBytesDecode (bcsBytesEncode payload ++ rest) =
      some (payload, rest) := by
  unfold bcsBytesEncode bcsBytesDecode
  rw [List.append_assoc, uleb128_decode_encode]
  simp [List.take_append_of_le_length, List.drop_append_of_le_length]

/-- A concrete `BcsCodec` instance for `Nat` service ids, used by the
concrete witnesses below: bcs ULEB128 of the id itself. -/
def natCodec : BcsCodec Nat where
  enc := uleb128Encode
  dec := uleb128Decode
  dec_enc := uleb128_decode_encode

/-! ## Concrete material for the witnesses -/

/-- A subscription that abstains from everything. -/
def subSilent : Subscription :=
  { handle := fun _ => .ok none, weak_handle := fun _ => .ok none }

/-- A subscription whose handlers always fail. -/
def subFailing : Subscription :=
  { handle := fun _ => .error "boom", weak_handle := fun _ => .error "boom" }

/-- A subscription that echoes typed payloads and answers the text
`"status"`. -/
def subStatus : Subscription :=
  { handle := fun payload => .ok (some payload),
    weak_handle := fun text =>
      if text = "status" then .ok (some "Operational") else .ok none }

/-- A concrete inner console state for the dispatch witnesses: a failing
subscription at id `1`, a silent one at id `2`, the status subscription at
id `3`. -/
def innerW : Inner Nat :=
  { subscriptions := [(1, subFailing), (2, subSilent), (3, subStatus)],
    welcome := ensure_newline "Welcome to TCP console!",
    accept_only_localhost := true }

/-! ## Claim theorems -/

/-- C5. For every builder state and every service id already registered
in it, `subscribe` with that id fails with the duplicate-service-id error
carrying the id's textual representation, and the entry operation it goes
through leaves the accumulated registry exactly as it was; the builder state
is universally quantified, so this holds for every registration order. -/
theorem subscribe_duplicate_fails [DecidableEq S] [Repr S] (b : Builder S A)
    (service_id : S) (sub0 newSub : Subscription)
    (h : assocLookup b.subscriptions service_id = some sub0) :
    b.subscribe service_id newSub =
        .error (.ServiceIdUsed (reprStr service_id)) ∧
      (entryOccupiedOrInsert b.subscriptions service_id newSub).2 =
        b.subscriptions := by
  simp [Builder.subscribe, entryOccupiedOrInsert, h]

/-- Witness for C5: registering service id `3` twice on a concrete builder
fails with `ServiceIdUsed "3"` and leaves the registry untouched. -/
theorem subscribe_duplicate_fails_witness :
    ({ subscriptions := [(3, subSilent)], bind_address := (none : Option Nat),
        welcome := none, accept_only_localhost := false } :
        Builder Nat Nat).subscribe 3 subStatus =
        .error (.ServiceIdUsed (reprStr 3)) ∧
      (entryOccupiedOrInsert [(3, subSilent)] 3 subStatus).2 =
        [(3, subSilent)] :=
  subscribe_duplicate_fails _ 3 subSilent subStatus rfl

/-- C9. `build` fails with the missing-bind-target error (`Error.NoPort`)
exactly when no bind target was supplied; it is a pure step (no socket is
involved in its definition), and on success the console's welcome text is the
configured welcome string (empty when none was configured) with a trailing
newline appended when absent. -/
theorem build_missing_target_and_welcome (b : Builder S A) :
    (b.build = .error Error.NoPort ↔ b.bind_address = none) ∧
      (∀ addr, b.bind_address = some addr → ∃ cns, b.build = .ok cns) ∧
      (∀ cns, b.build = .ok cns →
        cns.inner.welcome =
          (if (b.welcome.getD "").endsWith "\n" then b.welcome.getD ""
           else b.welcome.getD "" ++ "\n")) := by
  refine ⟨?_, ?_, ?_⟩
  · cases hb : b.bind_address <;> simp [Builder.build, hb]
  · intro addr ha
    exact ⟨Console.new b.subscriptions addr (ensure_newline (b.welcome.getD ""))
      b.accept_only_localhost, by simp [Builder.build, ha, Console.new]⟩
  · intro cns hc
    cases hb : b.bind_address with
    | none => simp [Builder.build, hb] at hc
    | some addr =>
      simp [Builder.build, hb] at hc
      subst hc
      rfl

/-- A concrete builder for the C9 and C10 witnesses: bind target `9`,
welcome `"hi"`. -/
def builderW : Builder Nat Nat :=
  { subscriptions := [], bind_address := some 9, welcome := some "hi",
    accept_only_localhost := false }

/-- Witness for C9: `builderW` (bind target supplied) builds successfully and
the resulting welcome is `"hi"` with a newline appended. -/
theorem build_missing_target_and_welcome_witness :
    (∃ cns, builderW.build = .ok cns) ∧
      (Console.new ([] : List (Nat × Subscription)) 9 (ensure_newline "hi")
          false).inner.welcome =
        (if ("hi" : String).endsWith "\n" then ("hi" : String)
         else ("hi" : String) ++ "\n") :=
  ⟨(build_missing_target_and_welcome builderW).2.1 9 rfl,
    (build_missing_target_and_welcome builderW).2.2
      (Console.new [] 9 (ensure_newline "hi") false) rfl⟩

/-- C10. `spawn` binds at `(LOCALHOST, port)` where `port` is exactly the
bind target the caller supplied to the builder, and a bind failure surfaces
as `Error::Io` in `spawn`'s own return value (the bind is awaited before the
accept-loop task is spawned). -/
theorem spawn_binds_builder_target (b : Builder S A) (addr : A)
    (cns : Console S A) (osBind : String × A → Except String Unit)
    (ha : b.bind_address = some addr) (hc : b.build = .ok cns) :
    cns.port = addr ∧
      (∀ e, osBind (LOCALHOST, addr) = .error e →
        cns.spawn osBind = .error (.Io e)) ∧
      (osBind (LOCALHOST, addr) = .ok () → cns.spawn osBind = .ok ()) := by
  simp [Builder.build, ha] at hc
  subst hc
  refine ⟨rfl, ?_, ?_⟩
  · intro e he
    simp [Console.spawn, Console.new, he]
  · intro hok
    simp [Console.spawn, Console.new, hok]

/-- An OS bind stub for the C10 witness: binding `("localhost", 9)` fails. -/
def bindStub : String × Nat → Except String Unit :=
  fun t => if t = (LOCALHOST, 9) then .error "in use" else .ok ()

/-- Witness for C10: `builderW`, bound at port `9`, spawns against an OS
stub that fails binding `("localhost", 9)`, and the failure comes back from
`spawn`. -/
theorem spawn_binds_builder_target_witness :
    (Console.new ([] : List (Nat × Subscription)) 9 (ensure_newline "hi")
        false).port = 9 ∧
      (Console.new ([] : List (Nat × Subscription)) 9 (ensure_newline "hi")
        false).spawn bindStub = .error (.Io "in use") :=
  ⟨(spawn_binds_builder_target builderW 9
      (Console.new [] 9 (ensure_newline "hi") false) bindStub rfl rfl).1,
    (spawn_binds_builder_target builderW 9
      (Console.new [] 9 (ensure_newline "hi") false) bindStub rfl rfl).2.1
      "in use" rfl⟩

/-- The free-text scan equals the first `some` of the per-entry reply
projection, in registry order. -/
theorem weakScan_eq_findSome (text : String) :
    ∀ subs : List (S × Subscription),
      weakScan subs text = subs.findSome? (weakReply text) := by
  intro subs
  induction subs with
  | nil => rfl
  | cons p rest ih =>
    obtain ⟨sid, sub⟩ := p
    simp only [weakScan, List.findSome?_cons, weakReply]
    cases h : sub.weak_handle text with
    | ok o => cases o <;> simp [ih]
    | error e => simp [ih]

/-- C4. Encoding a typed message as the client does — bcs-serialized
payload wrapped in `Message { service_id, bytes }`, bcs-serialized — and
decoding exactly those bytes at the session yields the original service id
and bit-identical payload bytes; consequently the registered handler's
`handle` is applied to exactly the encoded payload. -/
theorem envelope_roundtrip [DecidableEq S] (c : BcsCodec S) (service_id : S)
    (payload : List Nat) :
    decodeMessage c (encodeMessage c service_id payload) =
        some (service_id, payload) ∧
      ∀ subs sub, assocLookup subs service_id = some sub →
        processFrame c subs (encodeMessage c service_id payload) =
          match sub.handle payload with
          | .ok reply => reply
          | .error _ => none := by
  have h1 : bcsBytesDecode (bcsBytesEncode payload) = some (payload, []) := by
    simpa using bcsBytes_decode_encode payload []
  have hdec : decodeMessage c (encodeMessage c service_id payload) =
      some (service_id, payload) := by
    unfold encodeMessage decodeMessage
    rw [c.dec_enc]
    simp [h1]
  refine ⟨hdec, ?_⟩
  intro subs sub hsub
  unfold processFrame
  rw [hdec]
  cases h : sub.handle payload with
  | ok reply => cases reply <;> simp [hsub, h]
  | error e => simp [hsub, h]

/-- Witness for C4: service id `3` with payload `[1, 2, 3]` round-trips
through the envelope codec, and in the concrete registry the handler at `3`
receives `[1, 2, 3]` bit-identically. -/
theorem envelope_roundtrip_witness :
    decodeMessage natCodec (encodeMessage natCodec 3 [1, 2, 3]) =
        some (3, [1, 2, 3]) ∧
      processFrame natCodec innerW.subscriptions
          (encodeMessage natCodec 3 [1, 2, 3]) =
        match subStatus.handle [1, 2, 3] with
        | .ok reply => reply
        | .error _ => none :=
  ⟨(envelope_roundtrip natCodec 3 [1, 2, 3]).1,
    (envelope_roundtrip natCodec 3 [1, 2, 3]).2 innerW.subscriptions
      subStatus rfl⟩

/-- C3. A frame that decodes as a typed envelope is dispatched to exactly
the handler registered for its service id: an unregistered id is dropped with
no reply, a `Some` reply is written back on the same connection, `None` and
handler errors produce no reply, and in every case the session goes on
reading the remaining events. -/
theorem typed_dispatch [DecidableEq S] (c : BcsCodec S) (inner : Inner S)
    (bytes : List Nat) (service_id : S) (payload : List Nat)
    (events : List SessionEvent) (sent : List (List Nat))
    (hdec : decodeMessage c bytes = some (service_id, payload)) :
    sessionLoop c inner (.recvOk bytes :: events) sent =
      sessionLoop c inner events
        (sent ++
          match assocLookup inner.subscriptions service_id with
          | none => []
          | some sub =>
            match sub.handle payload with
            | .ok (some message) => [message]
            | .ok none => []
            | .error _ => []) := by
  show sessionLoop c inner events
      (sent ++ (processFrame c inner.subscriptions bytes).toList) = _
  congr 1
  unfold processFrame
  rw [hdec]
  cases h : assocLookup inner.subscriptions service_id with
  | none => simp [h]
  | some sub =>
    cases hh : sub.handle payload with
    | ok reply => cases reply <;> simp [h, hh]
    | error e => simp [h, hh]

/-- Witness for C3: a typed frame for registered id `3` with payload
`[104, 105]` is answered by `subStatus`'s echo, and the session keeps
reading. -/
theorem typed_dispatch_witness :
    sessionLoop natCodec innerW
        (.recvOk (encodeMessage natCodec 3 [104, 105]) :: []) [] =
      sessionLoop natCodec innerW []
        ([] ++
          match assocLookup innerW.subscriptions 3 with
          | none => []
          | some sub =>
            match sub.handle [104, 105] with
            | .ok (some message) => [message]
            | .ok none => []
            | .error _ => []) :=
  typed_dispatch natCodec innerW (encodeMessage natCodec 3 [104, 105]) 3
    [104, 105] [] [] (by decide)

/-- C1. A frame whose bytes fail to decode as a typed envelope is
dispatched on the free-text path: every handler is offered the
whitespace-trimmed lossy UTF-8 decoding of the raw bytes (`weakText`), in
registry order, and the reply written back on this connection is the first
`Ok(Some(_))` — with a trailing newline ensured — while `Ok(None)` and
handler errors are passed over; if all abstain nothing is written, and in
every case the session goes on reading. -/
theorem weak_dispatch [DecidableEq S] (c : BcsCodec S) (inner : Inner S)
    (bytes : List Nat) (events : List SessionEvent) (sent : List (List Nat))
    (hdec : decodeMessage c bytes = none) :
    sessionLoop c inner (.recvOk bytes :: events) sent =
      sessionLoop c inner events
        (sent ++
          ((inner.subscriptions.findSome? (weakReply (weakText bytes))).map
            (fun message => strBytes (ensure_newline message))).toList) := by
  show sessionLoop c inner events
      (sent ++ (processFrame c inner.subscriptions bytes).toList) = _
  congr 1
  unfold processFrame
  rw [hdec, weakScan_eq_findSome]
  cases h : inner.subscriptions.findSome? (weakReply (weakText bytes)) <;>
    simp

/-- Witness for C1: the raw text frame `"  status\n"` fails envelope
decoding; the failing handler is passed over, the silent one abstains, and
`subStatus` answers the trimmed text `"status"` with `"Operational\n"`. -/
theorem weak_dispatch_witness :
    sessionLoop natCodec innerW (.recvOk (strBytes "  status\n") :: []) [] =
      sessionLoop natCodec innerW []
        ([] ++
          ((innerW.subscriptions.findSome?
              (weakReply (weakText (strBytes "  status\n")))).map
            (fun message => strBytes (ensure_newline message))).toList) :=
  weak_dispatch natCodec innerW (strBytes "  status\n") [] [] (by decide)

/-- If exactly one element of a list hits under `f`, `findSome?` returns that
hit, whatever the list order. -/
theorem findSome_of_countP_one {α β : Type} (f : α → Option β) :
    ∀ (l : List α) (p : α) (r : β), p ∈ l → f p = some r →
      l.countP (fun q => (f q).isSome) = 1 → l.findSome? f = some r := by
  intro l
  induction l with
  | nil => intro p r hp _ _; cases hp
  | cons q t ih =>
    intro p r hp hr hcount
    rw [List.countP_cons] at hcount
    cases hq : f q with
    | some s =>
      have ht : t.countP (fun x => (f x).isSome) = 0 := by
        simp [hq] at hcount
        exact List.countP_eq_zero.mpr fun a ha => by simp [hcount a ha]
      rcases List.mem_cons.mp hp with h | h
      · subst h
        rw [hq] at hr
        simp [List.findSome?_cons, hq, hr]
      · exfalso
        have hnone := (List.countP_eq_zero.mp ht) p h
        simp [hr] at hnone
    | none =>
      have hcount2 : t.countP (fun x => (f x).isSome) = 1 := by
        simp [hq] at hcount
        omega
      have hp2 : p ∈ t := by
        rcases List.mem_cons.mp hp with h | h
        · subst h; rw [hq] at hr; cases hr
        · exact h
      simp only [List.findSome?_cons, hq]
      exact ih p r hp2 hr hcount2

/-- C6. If among the registered handlers exactly one would answer a
free-text input with `Some`, the reply delivered for an undecodable frame is
that handler's — under any permutation of the registry, so regardless of its
iteration order; and if no handler would answer, no reply is produced. -/
theorem weak_unique_reply [DecidableEq S] (c : BcsCodec S)
    (subs subs2 : List (S × Subscription)) (bytes : List Nat)
    (hdec : decodeMessage c bytes = none) (hperm : subs.Perm subs2) :
    (∀ p r, p ∈ subs → weakReply (weakText bytes) p = some r →
      subs.countP (fun q => (weakReply (weakText bytes) q).isSome) = 1 →
      processFrame c subs2 bytes = some (strBytes (ensure_newline r))) ∧
    ((∀ p ∈ subs, weakReply (weakText bytes) p = none) →
      processFrame c subs2 bytes = none) := by
  constructor
  · intro p r hp hr hcount
    have hfind : subs2.findSome? (weakReply (weakText bytes)) = some r := by
      refine findSome_of_countP_one _ subs2 p r (hperm.mem_iff.mp hp) hr ?_
      rw [← hperm.countP_eq]
      exact hcount
    unfold processFrame
    rw [hdec, weakScan_eq_findSome, hfind]
  · intro hall
    have hfind : subs2.findSome? (weakReply (weakText bytes)) = none := by
      refine List.findSome?_eq_none_iff.mpr ?_
      intro x hx
      exact hall x (hperm.mem_iff.mpr hx)
    unfold processFrame
    rw [hdec, weakScan_eq_findSome, hfind]

/-- Witness for C6: on the text `"status"` only `subStatus` answers among the
three concrete subscriptions, and with the registry reversed the delivered
reply is still `"Operational\n"`; on `"ping"` nobody answers and the reversed
registry produces no reply. -/
theorem weak_unique_reply_witness :
    processFrame natCodec innerW.subscriptions.reverse (strBytes "status") =
        some (strBytes (ensure_newline "Operational")) ∧
      processFrame natCodec innerW.subscriptions.reverse (strBytes "ping") =
        none :=
  ⟨(weak_unique_reply natCodec innerW.subscriptions
        innerW.subscriptions.reverse (strBytes "status") (by decide)
        (List.reverse_perm innerW.subscriptions).symm).1
      (3, subStatus) "Operational"
      (List.mem_cons_of_mem _ (List.mem_cons_of_mem _
        (List.mem_cons_self _ _)))
      (by decide) (by decide),
    (weak_unique_reply natCodec innerW.subscriptions
        innerW.subscriptions.reverse (strBytes "ping") (by decide)
        (List.reverse_perm innerW.subscriptions).symm).2
      (by
        intro p hp
        simp only [innerW, List.mem_cons, List.not_mem_nil, or_false] at hp
        rcases hp with h | h | h <;> subst h <;> rfl)⟩

/-- C7 counterexample. The claim says a session-level I/O error ends the
session; in the code a receive error hits the
`Some(Err(err)) => { warn!(...); continue }` arm, so the concrete session
below is still at its read point after an I/O error — not closed. -/
theorem session_io_error_keeps_reading :
    sessionLoop natCodec innerW [.recvErr] [strBytes innerW.welcome] =
      (.stillReading, [strBytes innerW.welcome]) := rfl

/-- C7 (amended). A session ends only on the shutdown signal or
peer-initiated close (given a resolvable peer address); a receive error on a
single read — I/O errors included — is logged and skipped, and any received
frame, malformed typed envelopes included, is dispatched with the session
then returning to reading. -/
theorem session_close_conditions [DecidableEq S] (c : BcsCodec S)
    (inner : Inner S) :
    (∀ events sent, (sessionLoop c inner events sent).1 ≠ .stillReading →
      ∃ e ∈ events, e = SessionEvent.stopNotified ∨
        e = SessionEvent.peerClosed) ∧
    (∀ events sent, sessionLoop c inner (.recvErr :: events) sent =
      sessionLoop c inner events sent) ∧
    (∀ bytes events sent,
      sessionLoop c inner (.recvOk bytes :: events) sent =
        sessionLoop c inner events
          (sent ++ (processFrame c inner.subscriptions bytes).toList)) := by
  refine ⟨?_, fun _ _ => rfl, fun _ _ _ => rfl⟩
  intro events
  induction events with
  | nil => intro sent h; exact absurd rfl h
  | cons e rest ih =>
    intro sent h
    cases e with
    | stopNotified => exact ⟨.stopNotified, by simp⟩
    | peerClosed => exact ⟨.peerClosed, by simp⟩
    | recvErr =>
      obtain ⟨e0, he0, hor⟩ := ih sent h
      exact ⟨e0, List.mem_cons_of_mem _ he0, hor⟩
    | recvOk bytes =>
      obtain ⟨e0, he0, hor⟩ :=
        ih (sent ++ (processFrame c inner.subscriptions bytes).toList) h
      exact ⟨e0, List.mem_cons_of_mem _ he0, hor⟩

/-- Witness for the amended C7: a concrete run that survives a receive error
and a malformed frame, then closes because the peer hangs up — the cause is
found among the events. -/
theorem session_close_conditions_witness :
    (∃ e ∈ [SessionEvent.recvErr, SessionEvent.recvOk [0xFF],
        SessionEvent.peerClosed],
      e = SessionEvent.stopNotified ∨ e = SessionEvent.peerClosed) ∧
    (sessionLoop natCodec innerW
        (.recvErr :: [SessionEvent.peerClosed]) [] =
      sessionLoop natCodec innerW [SessionEvent.peerClosed] []) ∧
    (sessionLoop natCodec innerW (.recvOk [0xFF] :: []) [] =
      sessionLoop natCodec innerW []
        ([] ++ (processFrame natCodec innerW.subscriptions [0xFF]).toList)) :=
  ⟨(session_close_conditions natCodec innerW).1
      [SessionEvent.recvErr, SessionEvent.recvOk [0xFF],
        SessionEvent.peerClosed] [] (by decide),
    (session_close_conditions natCodec innerW).2.1 [SessionEvent.peerClosed]
      [],
    (session_close_conditions natCodec innerW).2.2 [0xFF] [] []⟩

/-- The session loop only ever appends to the bytes already written on the
connection. -/
theorem sessionLoop_sent_grows [DecidableEq S] (c : BcsCodec S)
    (inner : Inner S) :
    ∀ events sent, ∃ extra,
      (sessionLoop c inner events sent).2 = sent ++ extra := by
  intro events
  induction events with
  | nil => intro sent; exact ⟨[], by simp [sessionLoop]⟩
  | cons e rest ih =>
    intro sent
    cases e with
    | stopNotified => exact ⟨[], by simp [sessionLoop]⟩
    | peerClosed => exact ⟨[], by simp [sessionLoop]⟩
    | recvErr => simpa [sessionLoop] using ih sent
    | recvOk bytes =>
      obtain ⟨extra, hx⟩ :=
        ih (sent ++ (processFrame c inner.subscriptions bytes).toList)
      exact ⟨(processFrame c inner.subscriptions bytes).toList ++ extra,
        by simp [sessionLoop, hx]⟩

/-- C8. With the origin-restriction flag set, a connection with an
unresolvable peer address, and one whose peer is not loopback, are both
dropped with no session and no bytes sent, while the accept loop goes on
(that is the `continue` modelled by the `none` result); a loopback peer gets
a session whose first frame on the wire is the welcome text. -/
theorem origin_restriction_gate [DecidableEq S] (c : BcsCodec S)
    (inner : Inner S) (hflag : inner.accept_only_localhost = true) :
    (∀ events, acceptAndRun c inner none events = none) ∧
      (∀ addr events, addr.isLoopback = false →
        acceptAndRun c inner (some addr) events = none) ∧
      (∀ addr events, addr.isLoopback = true →
        ∃ e rest, acceptAndRun c inner (some addr) events =
          some (e, strBytes inner.welcome :: rest)) := by
  refine ⟨fun _ => rfl, ?_, ?_⟩
  · intro addr events hnl
    simp [acceptAndRun, hflag, hnl]
  · intro addr events hl
    obtain ⟨extra, hx⟩ :=
      sessionLoop_sent_grows c inner events [strBytes inner.welcome]
    refine ⟨(sessionLoop c inner events [strBytes inner.welcome]).1, extra,
      ?_⟩
    simp [acceptAndRun, hflag, hl, handle_console_session]
    rw [show (sessionLoop c inner events [strBytes inner.welcome]) =
      ((sessionLoop c inner events [strBytes inner.welcome]).1,
        (sessionLoop c inner events [strBytes inner.welcome]).2) from rfl,
      hx]
    simp

/-- Witness for C8: with the flag set in `innerW`, an unresolvable peer and a
non-loopback peer are rejected silently, and a loopback peer's session opens
with the welcome frame. -/
theorem origin_restriction_gate_witness :
    acceptAndRun natCodec innerW none [] = none ∧
      acceptAndRun natCodec innerW (some ⟨false⟩) [] = none ∧
      (∃ e rest, acceptAndRun natCodec innerW (some ⟨true⟩) [] =
        some (e, strBytes innerW.welcome :: rest)) :=
  ⟨(origin_restriction_gate natCodec innerW rfl).1 [],
    (origin_restriction_gate natCodec innerW rfl).2.1 ⟨false⟩ [] rfl,
    (origin_restriction_gate natCodec innerW rfl).2.2 ⟨true⟩ [] rfl⟩

/-- A step that is not `fireStop` only moves tasks between `processing` and
`selecting`: it closes nobody. -/
theorem sysStep_nonfire_not_closed (s : StopSystem) (e : SysEvent)
    (i : Nat) (he : e ≠ .fireStop) (h : s.tasks[i]? ≠ some .closed) :
    (sysStep s e).tasks[i]? ≠ some TaskPhase.closed := by
  cases e with
  | fireStop => exact absurd rfl he
  | enterSelect j =>
    simp only [sysStep]
    cases hj : s.tasks[j]? with
    | none => simpa using h
    | some p =>
      cases p with
      | processing =>
        intro hc
        rw [List.getElem?_set] at hc
        split at hc
        · split at hc <;> simp_all
        · exact h hc
      | selecting => simpa using h
      | closed => simpa using h
  | frameArrives j =>
    simp only [sysStep]
    cases hj : s.tasks[j]? with
    | none => simpa using h
    | some p =>
      cases p with
      | selecting =>
        intro hc
        rw [List.getElem?_set] at hc
        split at hc
        · split at hc <;> simp_all
        · exact h hc
      | processing => simpa using h
      | closed => simpa using h

/-- C2 counterexample. `Notify::notify_waiters` stores no permit: start
with one session suspended in `Reading`; a frame arrives (the session leaves
its suspension point to process it), `Console::stop` fires while it is
processing, and the session then re-enters its read suspension point.  The
signal has fired, yet this previously open session is suspended again —
`selecting`, not `closed` — despite no further peer action being required by
the claim. -/
theorem stop_future_waiter_missed :
    sysRun { tasks := [.selecting], stopFired := false }
        [.frameArrives 0, .fireStop, .enterSelect 0] =
      { tasks := [TaskPhase.selecting], stopFired := true } := rfl

/-- C2 (amended). Firing the shutdown signal wakes exactly the tasks
(accept loop or sessions) currently suspended at their `select!` points: each
observes it independently and terminates, and an immediate second fire is a
no-op on the resulting state.  But the signal is not latched for future
waiters: a task between suspension points when the signal fires does not
observe that firing, and without a further `fireStop` no unclosed task ever
closes, whatever else is scheduled. -/
theorem stop_broadcast_current_waiters (s : StopSystem) (i : Nat) :
    (s.tasks[i]? = some TaskPhase.selecting →
      (sysStep s .fireStop).tasks[i]? = some TaskPhase.closed) ∧
    (s.tasks[i]? = some TaskPhase.processing →
      (sysStep s .fireStop).tasks[i]? = some TaskPhase.processing) ∧
    (sysStep (sysStep s .fireStop) .fireStop = sysStep s .fireStop) ∧
    (∀ evs, (∀ e ∈ evs, e ≠ SysEvent.fireStop) →
      s.tasks[i]? ≠ some TaskPhase.closed →
      (sysRun s evs).tasks[i]? ≠ some TaskPhase.closed) := by
  refine ⟨?_, ?_, ?_, ?_⟩
  · intro h
    simp [sysStep, h]
  · intro h
    simp [sysStep, h]
  · unfold sysStep
    simp only [StopSystem.mk.injEq, and_true]
    rw [List.map_map]
    refine List.map_congr_left fun p _ => ?_
    cases p <;> simp
  · intro evs
    induction evs generalizing s with
    | nil => intro _ h; simpa [sysRun] using h
    | cons e rest ih =>
      intro hall h
      have he : e ≠ SysEvent.fireStop := hall e (by simp)
      have hstep := sysStep_nonfire_not_closed s e i he h
      have hrest : ∀ x ∈ rest, x ≠ SysEvent.fireStop :=
        fun x hx => hall x (List.mem_cons_of_mem _ hx)
      simpa [sysRun] using ih (sysStep s e) hrest hstep

/-- A concrete two-task state for the C2 witness: task 0 suspended at its
select point, task 1 processing. -/
def stopSysW : StopSystem :=
  { tasks := [.selecting, .processing], stopFired := false }

/-- Witness for the amended C2: with task 0 suspended and task 1 processing,
firing the signal closes task 0, leaves task 1 running, is idempotent on the
result, and a fire-free schedule closes nobody. -/
theorem stop_broadcast_current_waiters_witness :
    (sysStep stopSysW SysEvent.fireStop).tasks[0]? =
        some TaskPhase.closed ∧
      (sysStep stopSysW SysEvent.fireStop).tasks[1]? =
        some TaskPhase.processing ∧
      sysStep (sysStep stopSysW SysEvent.fireStop) SysEvent.fireStop =
        sysStep stopSysW SysEvent.fireStop ∧
      (sysRun stopSysW [SysEvent.enterSelect 1, SysEvent.frameArrives 0]
        ).tasks[0]? ≠ some TaskPhase.closed :=
  ⟨(stop_broadcast_current_waiters stopSysW 0).1 rfl,
    (stop_broadcast_current_waiters stopSysW 1).2.1 rfl,
    (stop_broadcast_current_waiters stopSysW 0).2.2.1,
    (stop_broadcast_current_waiters stopSysW 0).2.2.2
      [SysEvent.enterSelect 1, SysEvent.frameArrives 0] (by decide)
      (by decide)⟩

end TcpConsole
